import Mathlib

/-!
Verification of the crudis in-memory key-value server against its
specification.  The Rust sources (src/database.rs, src/main.rs,
src/resp.rs) are shallowly embedded below: machine integers are `Int`
with explicit wrapping where Rust release-mode arithmetic wraps, byte
strings are Lean `String`s (bytes modelled as `Char`s on the wire),
fallible or panicking code returns `Option`, and the shared hash map
behind the per-key locks is modelled as an association list acted on by
one thread at a time (per-key linearizability is the spec's own model).
-/

namespace Crudis

/-- Two's-complement wrap into the signed 64-bit range, modelling Rust
release-mode `i64` arithmetic. -/
def wrap64 (x : Int) : Int :=
  (x + 2 ^ 63) % 2 ^ 64 - 2 ^ 63

/-- Wrap into the unsigned 64-bit range: Rust's `as usize` cast of an
`isize`, and release-mode `usize` arithmetic. -/
def usizeOfIsize (x : Int) : Nat :=
  (x % 2 ^ 64).toNat

/-- Decimal value of a digit string (no validity check; callers check). -/
def decimalValue (cs : List Char) : Nat :=
  cs.foldl (fun n c => n * 10 + (c.toNat - 48)) 0

/-- Step of Rust integer `FromStr`: accumulate a digit, failing on a
non-digit.  Overflow is checked once at the end (equivalent to Rust's
per-step checked arithmetic, since the accumulator only grows). -/
def digitStep (acc : Option Nat) (c : Char) : Option Nat :=
  match acc with
  | none => none
  | some n => if c.isDigit then some (n * 10 + (c.toNat - 48)) else none

/-- All-digit strings (at least one digit) evaluate to their value. -/
def digitsVal : List Char → Option Nat
  | [] => none
  | cs => cs.foldl digitStep (some 0)

/-- Rust `i64::from_str` (`str::parse::<i64>()`): optional `+` or `-`
sign, then one or more ASCII digits; out-of-range values fail. -/
def parseI64 (s : String) : Option Int :=
  match s.toList with
  | [] => none
  | c :: rest =>
      if c = '+' then
        match digitsVal rest with
        | some n => if n ≤ 2 ^ 63 - 1 then some (n : Int) else none
        | none => none
      else if c = '-' then
        match digitsVal rest with
        | some n => if n ≤ 2 ^ 63 then some (-(n : Int)) else none
        | none => none
      else
        match digitsVal (c :: rest) with
        | some n => if n ≤ 2 ^ 63 - 1 then some (n : Int) else none
        | none => none

/-- Rust `usize::from_str`: optional `+` sign, digits, below `2 ^ 64`. -/
def parseUsize (s : String) : Option Nat :=
  match s.toList with
  | [] => none
  | c :: rest =>
      if c = '+' then
        match digitsVal rest with
        | some n => if n ≤ 2 ^ 64 - 1 then some n else none
        | none => none
      else
        match digitsVal (c :: rest) with
        | some n => if n ≤ 2 ^ 64 - 1 then some n else none
        | none => none

/-! Reply serialization (src/resp.rs): the `Display` impls used by
`database.rs` write these exact byte sequences. -/

/-- CRLF terminator. -/
def CRLF : String := "\r\n"

/-- `SimpleStringRef(s)` wire form. -/
def simpleStringRef (s : String) : String := "+" ++ s ++ CRLF

/-- `ErrorRef(s)` wire form. -/
def errorRef (s : String) : String := "-" ++ s ++ CRLF

/-- `RespData::Integer(i)` wire form. -/
def integerReply (i : Int) : String := ":" ++ toString i ++ CRLF

/-- `BulkStringRef(s)` wire form; `s.len()` is the UTF-8 byte length. -/
def bulkStringRef (s : String) : String :=
  "$" ++ toString s.utf8ByteSize ++ CRLF ++ s ++ CRLF

/-- `RespData::Nil` wire form. -/
def respNil : String := "$-1\r\n"

/-- `Database::ok()`. -/
def okReply : String := simpleStringRef "OK"

/-- `Database::wrongtype()`. -/
def wrongtypeReply : String :=
  errorRef "WRONGTYPE Operation against a key holding the wrong kind of value"

/-- `Database::out_of_range()`. -/
def outOfRangeReply : String := errorRef "ERR index out of range"

/-- `Database::no_such_key()`. -/
def noSuchKeyReply : String := errorRef "ERR no such key"

/-- The not-an-integer error emitted by `rmw_integer` and the argument
parsers in main.rs. -/
def notIntReply : String := errorRef "ERR value is not an integer or out of range"

/-! The keyspace data model (src/database.rs). -/

/-- `Value`: the tagged union stored in a cell.  `Set` and `Hash` are
placeholders in the source with no operations. -/
inductive Value where
  | string (s : String)
  | list (l : List String)
  | setOf (s : List String)
  | hash (h : List (String × String))
deriving DecidableEq, Repr

/-- The keyspace: `HashMap<String, Arc<RwLock<Bucket>>>` modelled as an
association list (hash order is unobservable; keys are unique in the
map, and every operation touches at most the first entry for its key). -/
def Database := List (String × Value)
deriving DecidableEq, Repr

/-- `map.get(key)`: the cell stored under `key`, if any. -/
def lookupKey (db : Database) (k : String) : Option Value :=
  match db with
  | [] => none
  | (k', v) :: rest => if k' = k then some v else lookupKey rest k

/-- Overwrite the cell under `k` (the source mutates the cell in place
through its lock, so the map's structure is unchanged). -/
def replaceKey (db : Database) (k : String) (v : Value) : Database :=
  match db with
  | [] => []
  | (k', v') :: rest =>
      if k' = k then (k', v) :: rest else (k', v') :: replaceKey rest k v

/-- `map.remove(key)`: drop the entry for `k`, reporting whether it was
present. -/
def removeKey (db : Database) (k : String) : Database × Bool :=
  match db with
  | [] => ([], false)
  | (k', v') :: rest =>
      if k' = k then (rest, true)
      else
        let (db', found) := removeKey rest k
        ((k', v') :: db', found)

/-- `map.entry(key).insert(...)` on the vacant path. -/
def insertKey (db : Database) (k : String) (v : Value) : Database :=
  (k, v) :: db

/-! String operations (src/database.rs).  Each returns the new database
and the bytes written to the reply writer. -/

/-- `Database::get`. -/
def dbGet (db : Database) (k : String) : Database × String :=
  match lookupKey db k with
  | none => (db, respNil)
  | some (Value.string s) => (db, bulkStringRef s)
  | some _ => (db, wrongtypeReply)

/-- `Database::set`. -/
def dbSet (db : Database) (k v : String) : Database × String :=
  match lookupKey db k with
  | none => (insertKey db k (Value.string v), okReply)
  | some _ => (replaceKey db k (Value.string v), okReply)

/-- `Database::setnx`. -/
def dbSetnx (db : Database) (k v : String) : Database × String :=
  match lookupKey db k with
  | none => (insertKey db k (Value.string v), integerReply 1)
  | some _ => (db, integerReply 0)

/-- `Database::getset`. -/
def dbGetset (db : Database) (k v : String) : Database × String :=
  match lookupKey db k with
  | none => (insertKey db k (Value.string v), respNil)
  | some (Value.string old) => (replaceKey db k (Value.string v), bulkStringRef old)
  | some _ => (db, wrongtypeReply)

/-- `Database::mget`. -/
def dbMget (db : Database) (keys : List String) : Database × String :=
  (db, "*" ++ toString keys.length ++ CRLF ++
    String.join (keys.map (fun k =>
      match lookupKey db k with
      | some (Value.string s) => bulkStringRef s
      | some _ => respNil
      | none => respNil)))

/-- `Database::rmw_integer`.  `if_present` is applied to the parsed
value (callers pass wrapping i64 arithmetic, the release-build
behaviour of the source's unchecked `+`/`-`). -/
def dbRmwInteger (db : Database) (k : String) (ifPresent : Int → Int)
    (ifAbsent : Int) : Database × String :=
  match lookupKey db k with
  | none =>
      (insertKey db k (Value.string (toString ifAbsent)), integerReply ifAbsent)
  | some (Value.string s) =>
      match parseI64 s with
      | some x =>
          let i := ifPresent x
          (replaceKey db k (Value.string (toString i)), integerReply i)
      | none => (db, notIntReply)
  | some _ => (db, wrongtypeReply)

/-- `Database::incrby`. -/
def dbIncrby (db : Database) (k : String) (increment : Int) : Database × String :=
  dbRmwInteger db k (fun x => wrap64 (x + increment)) increment

/-- `Database::incr`. -/
def dbIncr (db : Database) (k : String) : Database × String :=
  dbIncrby db k 1

/-- `Database::decrby`; `-decrement` itself wraps for `i64::MIN`. -/
def dbDecrby (db : Database) (k : String) (decrement : Int) : Database × String :=
  dbRmwInteger db k (fun x => wrap64 (x - decrement)) (wrap64 (-decrement))

/-- `Database::decr`. -/
def dbDecr (db : Database) (k : String) : Database × String :=
  dbDecrby db k 1

/-! List operations (src/database.rs). -/

/-- `Database::lpush`. -/
def dbLpush (db : Database) (k v : String) : Database × String :=
  match lookupKey db k with
  | none => (insertKey db k (Value.list [v]), integerReply 1)
  | some (Value.list l) =>
      (replaceKey db k (Value.list (v :: l)), integerReply (v :: l).length)
  | some _ => (db, wrongtypeReply)

/-- `Database::rpush`. -/
def dbRpush (db : Database) (k v : String) : Database × String :=
  match lookupKey db k with
  | none => (insertKey db k (Value.list [v]), integerReply 1)
  | some (Value.list l) =>
      (replaceKey db k (Value.list (l ++ [v])), integerReply (l ++ [v]).length)
  | some _ => (db, wrongtypeReply)

/-- `Database::lpop`. -/
def dbLpop (db : Database) (k : String) : Database × String :=
  match lookupKey db k with
  | none => (db, respNil)
  | some (Value.list l) =>
      match l with
      | [] => (db, respNil)
      | v :: rest => (replaceKey db k (Value.list rest), bulkStringRef v)
  | some _ => (db, wrongtypeReply)

/-- `Database::rpop`. -/
def dbRpop (db : Database) (k : String) : Database × String :=
  match lookupKey db k with
  | none => (db, respNil)
  | some (Value.list l) =>
      match l.getLast? with
      | none => (db, respNil)
      | some v => (replaceKey db k (Value.list l.dropLast), bulkStringRef v)
  | some _ => (db, wrongtypeReply)

/-- `Database::llen`. -/
def dbLlen (db : Database) (k : String) : Database × String :=
  match lookupKey db k with
  | none => (db, integerReply 0)
  | some (Value.list l) => (db, integerReply l.length)
  | some _ => (db, wrongtypeReply)

/-- `Database::lindex`. -/
def dbLindex (db : Database) (k : String) (index : Int) : Database × String :=
  match lookupKey db k with
  | none => (db, respNil)
  | some (Value.list l) =>
      let offset : Int := if index < 0 then index + l.length else index
      if offset < 0 ∨ l.length ≤ offset then (db, respNil)
      else (db, bulkStringRef (l.getD offset.toNat ""))
  | some _ => (db, wrongtypeReply)

/-- `Database::lrange`.  `stop_clamped` is `min(len, stop_offset) as
usize`: a negative operand wraps.  `numel` is computed with usize
(release-mode wrapping) arithmetic. -/
def dbLrange (db : Database) (k : String) (start stop : Int) :
    Database × String :=
  match lookupKey db k with
  | none => (db, "*0" ++ CRLF)
  | some (Value.list l) =>
      let startOffset : Int := if start < 0 then start + l.length else start
      let stopOffset : Int := if stop < 0 then stop + l.length else stop
      let startClamped : Nat := (max 0 startOffset).toNat
      let stopClamped : Nat := usizeOfIsize (min (l.length : Int) stopOffset)
      if l.length ≤ startClamped ∨ stopClamped < startClamped then
        (db, "*0" ++ CRLF)
      else
        let numel : Nat := ((stopClamped + 1) % 2 ^ 64 + 2 ^ 64 - startClamped) % 2 ^ 64
        (db, "*" ++ toString numel ++ CRLF ++
          String.join (((l.drop startClamped).take numel).map bulkStringRef))
  | some _ => (db, wrongtypeReply)

/-- The `count > 0` loop of `Database::lrem`: drain front to back,
dropping a match while `num_removed < count`.  Returns the surviving
list and the final `num_removed`. -/
def lremFwd (count : Int) (v : String) : List String → Int → List String × Int
  | [], removed => ([], removed)
  | e :: rest, removed =>
      if removed < count ∧ e = v then lremFwd count v rest (removed + 1)
      else
        let (l', r) := lremFwd count v rest removed
        (e :: l', r)

/-- One step of the `count < 0` loop of `Database::lrem`: elements are
visited back to front and survivors are pushed to the front of the
accumulator. -/
def lremBwdStep (count : Int) (v : String) (acc : List String × Int)
    (e : String) : List String × Int :=
  if acc.2 < -count ∧ e = v then (acc.1, acc.2 + 1) else (e :: acc.1, acc.2)

/-- `Database::lrem`. -/
def dbLrem (db : Database) (k : String) (count : Int) (v : String) :
    Database × String :=
  match lookupKey db k with
  | none => (db, integerReply 0)
  | some (Value.list l) =>
      if 0 < count then
        let (l', r) := lremFwd count v l 0
        (replaceKey db k (Value.list l'), integerReply r)
      else if count < 0 then
        let (l', r) := l.reverse.foldl (lremBwdStep count v) ([], 0)
        (replaceKey db k (Value.list l'), integerReply r)
      else
        let l' := l.filter (fun e => e ≠ v)
        (replaceKey db k (Value.list l'), integerReply (l.length - l'.length : Nat))
  | some _ => (db, wrongtypeReply)

/-- `Database::lset`. -/
def dbLset (db : Database) (k : String) (index : Int) (v : String) :
    Database × String :=
  match lookupKey db k with
  | none => (db, noSuchKeyReply)
  | some (Value.list l) =>
      let offset : Int := if index < 0 then index + l.length else index
      if offset < 0 ∨ l.length ≤ offset then (db, outOfRangeReply)
      else (replaceKey db k (Value.list (l.set offset.toNat v)), okReply)
  | some _ => (db, wrongtypeReply)

/-- `Database::ltrim`.  `none` models a panic: after
`l.drain(..start_clamped)` the source runs `l.drain(numel..)`, which
panics when `numel` exceeds the remaining length (`stop_clamped` is
`min(len, stop_offset) as usize`, so `stop ≥ len` makes `numel` one too
large and a negative `stop_offset` wraps to a huge `usize`). -/
def dbLtrim (db : Database) (k : String) (start stop : Int) :
    Option (Database × String) :=
  match lookupKey db k with
  | none => some (db, okReply)
  | some (Value.list l) =>
      let startOffset : Int := if start < 0 then start + l.length else start
      let stopOffset : Int := if stop < 0 then stop + l.length else stop
      let startClamped : Nat := (max 0 startOffset).toNat
      let stopClamped : Nat := usizeOfIsize (min (l.length : Int) stopOffset)
      if l.length ≤ startClamped ∨ stopClamped < startClamped then
        some ((removeKey db k).1, okReply)
      else
        let numel : Nat := ((stopClamped + 1) % 2 ^ 64 + 2 ^ 64 - startClamped) % 2 ^ 64
        let kept := l.drop startClamped
        if kept.length < numel then none
        else some (replaceKey db k (Value.list (kept.take numel)), okReply)
  | some _ => some (db, wrongtypeReply)

/-! Keyspace operations (src/database.rs). -/

/-- `Database::del`: removes each listed key under one exclusive map
lock, counting those that existed. -/
def dbDel (db : Database) (keys : List String) : Database × String :=
  let (db', n) := keys.foldl
    (fun (acc : Database × Nat) k =>
      let (db', found) := removeKey acc.1 k
      (db', acc.2 + if found then 1 else 0))
    (db, 0)
  (db', integerReply n)

/-- `Database::exists`. -/
def dbExists (db : Database) (k : String) : Database × String :=
  (db, integerReply (if (lookupKey db k).isSome then 1 else 0))

/-! Command dispatcher (src/main.rs).  A handler takes the database and
the full argument vector (`args[0]` is the command name as sent) and
returns `none` when the Rust handler would panic (`unwrap` of a missing
argument, or a panicking keyspace operation). -/

/-- Rust `Handler = fn(&Database, Vec<String>, &mut Vec<u8>)`. -/
def Handler := Database → List String → Option (Database × String)

/-- `handle_decr`: key is `args[1]`. -/
def handleDecr : Handler := fun db args =>
  (args.get? 1).map (fun key => dbDecr db key)

/-- `handle_decrby`: key `args[1]`, decrement parsed from `args[2]`. -/
def handleDecrby : Handler := fun db args => do
  let key ← args.get? 1
  let d ← args.get? 2
  match parseI64 d with
  | some i => some (dbDecrby db key i)
  | none => some (db, notIntReply)

/-- `handle_get`: key is `args[1]`. -/
def handleGet : Handler := fun db args =>
  (args.get? 1).map (fun key => dbGet db key)

/-- `handle_getset`: the source reads `args[0]` (the command name) as
the key and `args[1]` (the key) as the value. -/
def handleGetset : Handler := fun db args => do
  let key ← args.get? 0
  let value ← args.get? 1
  some (dbGetset db key value)

/-- `handle_incr`: the source reads `args[0]` (the command name) as the
key. -/
def handleIncr : Handler := fun db args =>
  (args.get? 0).map (fun key => dbIncr db key)

/-- `handle_incrby`: the source parses `args[1]` (the key position) as
the increment and uses `args[0]` (the command name) as the key. -/
def handleIncrby : Handler := fun db args => do
  let raw ← args.get? 1
  match parseI64 raw with
  | some i => do
      let key ← args.get? 0
      some (dbIncrby db key i)
  | none => some (db, notIntReply)

/-- `handle_mget`: keys are `args[1..]`. -/
def handleMget : Handler := fun db args =>
  some (dbMget db (args.drop 1))

/-- `handle_set`: key `args[1]`, value `args[2]`. -/
def handleSet : Handler := fun db args => do
  let key ← args.get? 1
  let value ← args.get? 2
  some (dbSet db key value)

/-- `handle_setnx`: key `args[1]`, value `args[2]`. -/
def handleSetnx : Handler := fun db args => do
  let key ← args.get? 1
  let value ← args.get? 2
  some (dbSetnx db key value)

/-- `handle_lindex`: index parsed from `args[2]`, key `args[1]`. -/
def handleLindex : Handler := fun db args => do
  let raw ← args.get? 2
  match parseI64 raw with
  | some i => do
      let key ← args.get? 1
      some (dbLindex db key i)
  | none => some (db, notIntReply)

/-- `handle_llen`: key is `args[1]`. -/
def handleLlen : Handler := fun db args =>
  (args.get? 1).map (fun key => dbLlen db key)

/-- `handle_lpop`: key is `args[1]`. -/
def handleLpop : Handler := fun db args =>
  (args.get? 1).map (fun key => dbLpop db key)

/-- `handle_lpush`: key `args[1]`, value `args[2]`. -/
def handleLpush : Handler := fun db args => do
  let key ← args.get? 1
  let value ← args.get? 2
  some (dbLpush db key value)

/-- `handle_lrange`: the source parses `args[1]` (the key) as `start`
and `args[2]` (the start argument) as `stop`, then calls `lrange` with
key `args[1]`. -/
def handleLrange : Handler := fun db args => do
  let rawStart ← args.get? 1
  match parseI64 rawStart with
  | none => some (db, notIntReply)
  | some start => do
      let rawStop ← args.get? 2
      match parseI64 rawStop with
      | none => some (db, notIntReply)
      | some stop => do
          let key ← args.get? 1
          some (dbLrange db key start stop)

/-- `handle_lrem`: count parsed from `args[2]`, key `args[1]`, value
`args[3]`. -/
def handleLrem : Handler := fun db args => do
  let raw ← args.get? 2
  match parseI64 raw with
  | some count => do
      let key ← args.get? 1
      let v ← args.get? 3
      some (dbLrem db key count v)
  | none => some (db, notIntReply)

/-- `handle_lset`: key `args[1]`, index from `args[2]`, value `args[3]`. -/
def handleLset : Handler := fun db args => do
  let key ← args.get? 1
  let raw ← args.get? 2
  match parseI64 raw with
  | some i => do
      let v ← args.get? 3
      some (dbLset db key i v)
  | none => some (db, notIntReply)

/-- `handle_ltrim`: key `args[1]`, start from `args[2]`, stop from
`args[3]`; `ltrim` itself may panic. -/
def handleLtrim : Handler := fun db args => do
  let key ← args.get? 1
  let rawStart ← args.get? 2
  match parseI64 rawStart with
  | none => some (db, notIntReply)
  | some start => do
      let rawStop ← args.get? 3
      match parseI64 rawStop with
      | none => some (db, notIntReply)
      | some stop => dbLtrim db key start stop

/-- `handle_rpop`: key is `args[1]`. -/
def handleRpop : Handler := fun db args =>
  (args.get? 1).map (fun key => dbRpop db key)

/-- `handle_rpush`: key `args[1]`, value `args[2]`. -/
def handleRpush : Handler := fun db args => do
  let key ← args.get? 1
  let value ← args.get? 2
  some (dbRpush db key value)

/-- `handle_del`: the source passes the whole `args` vector, command
name included, to `Database::del`. -/
def handleDel : Handler := fun db args =>
  some (dbDel db args)

/-- `handle_exists`: the source reads `args[0]` (the command name) as
the key. -/
def handleExists : Handler := fun db args =>
  (args.get? 0).map (fun key => dbExists db key)

/-- `handle_ping`. -/
def handlePing : Handler := fun db _ =>
  some (db, "+PONG" ++ CRLF)

/-- `get_command`: the fixed name → (arity, handler) table; arity `-1`
is the variadic sentinel. -/
def getCommand (command : String) : Option (Int × Handler) :=
  if command = "decr" then some (1, handleDecr)
  else if command = "decrby" then some (2, handleDecrby)
  else if command = "get" then some (1, handleGet)
  else if command = "getset" then some (2, handleGetset)
  else if command = "incr" then some (1, handleIncr)
  else if command = "incrby" then some (2, handleIncrby)
  else if command = "mget" then some (-1, handleMget)
  else if command = "set" then some (2, handleSet)
  else if command = "setnx" then some (2, handleSetnx)
  else if command = "lindex" then some (2, handleLindex)
  else if command = "llen" then some (1, handleLlen)
  else if command = "lpop" then some (1, handleLpop)
  else if command = "lpush" then some (2, handleLpush)
  else if command = "lrange" then some (3, handleLrange)
  else if command = "lrem" then some (3, handleLrem)
  else if command = "lset" then some (3, handleLset)
  else if command = "ltrim" then some (3, handleLtrim)
  else if command = "rpop" then some (1, handleRpop)
  else if command = "rpush" then some (2, handleRpush)
  else if command = "del" then some (-1, handleDel)
  else if command = "exists" then some (1, handleExists)
  else if command = "ping" then some (0, handlePing)
  else none

/-- ASCII lower-casing of the command name (`msg[0].to_lowercase()`;
command names are ASCII, where Rust's Unicode lowercasing agrees with
this byte-wise map). -/
def asciiToLower (s : String) : String :=
  String.mk (s.toList.map (fun c =>
    if 'A' ≤ c ∧ c ≤ 'Z' then Char.ofNat (c.toNat + 32) else c))

/-- The `Display` impl for `Command` used in the unknown-command error. -/
def commandDisplay (msg : List String) : String :=
  "`" ++ msg.headD "" ++ "`, with args beginning with: " ++
    String.join ((msg.drop 1).map (fun arg => "`" ++ arg ++ "`, "))

/-- `make_response`: `none` models the `assert!(!msg.is_empty())`
panic or a panic inside a handler. -/
def makeResponse (db : Database) (msg : List String) :
    Option (Database × String) :=
  match msg with
  | [] => none
  | cmd0 :: _ =>
      let command := asciiToLower cmd0
      match getCommand command with
      | some (arity, f) =>
          if arity ≠ -1 ∧ (msg.length : Int) ≠ arity + 1 then
            some (db, "-ERR wrong number of arguments for '" ++ command ++
              "' command" ++ CRLF)
          else f db msg
      | none =>
          some (db, "-ERR unknown command " ++ commandDisplay msg ++ CRLF)

/-! Wire codec (src/resp.rs).  Wire bytes are modelled as `List Char`
(every byte of interest to the claims is ASCII). -/

/-- `is_whitespace`: space, horizontal tab, line feed, form feed or
carriage return. -/
def isWsByte (c : Char) : Bool :=
  c = ' ' ∨ c = '\t' ∨ c.toNat = 10 ∨ c.toNat = 12 ∨ c.toNat = 13

/-- Skip to the first non-whitespace byte (or the end). -/
def dropWs (l : List Char) : List Char :=
  l.dropWhile (fun c => isWsByte c)

/-- The token loop of `split_trim`; the head of a non-empty input is
always a non-whitespace byte here.  The loop consumes at least one byte
per iteration, so fuel equal to the buffer length makes the zero-fuel
case unreachable; fuel keeps the recursion structural. -/
def splitTrimGo : Nat → List Char → List (List Char)
  | _, [] => []
  | 0, _ => []
  | fuel + 1, c :: rest =>
      let tok := rest.takeWhile (fun x => ¬ isWsByte x)
      (c :: tok) :: splitTrimGo fuel (dropWs (rest.drop tok.length))

/-- `split_trim`: trim leading whitespace, then split on whitespace
runs. -/
def splitTrim (bytes : List Char) : List (List Char) :=
  splitTrimGo bytes.length (dropWs bytes)

/-- `take_until_and_consume!("\r\n")`: the bytes before the first CRLF
and the rest after it; `none` when no CRLF occurs (incomplete). -/
def takeUntilCRLF : List Char → Option (List Char × List Char)
  | [] => none
  | '\r' :: '\n' :: rest => some ([], rest)
  | c :: rest => (takeUntilCRLF rest).map (fun p => (c :: p.1, p.2))

/-- `take_until_and_consume!("\n")` for the inline path. -/
def takeUntilLF : List Char → Option (List Char × List Char)
  | [] => none
  | '\n' :: rest => some ([], rest)
  | c :: rest => (takeUntilLF rest).map (fun p => (c :: p.1, p.2))

/-- The `count!(...)` of `len` bulk strings inside
`parse_client_message`: `$`, decimal length, CRLF, the payload, CRLF. -/
def parseBulks : Nat → List Char → Option (List (List Char) × List Char)
  | 0, rest => some ([], rest)
  | n + 1, input =>
      match input with
      | '$' :: rest =>
          match takeUntilCRLF rest with
          | none => none
          | some (lenStr, r1) =>
              match parseUsize (String.mk lenStr) with
              | none => none
              | some len =>
                  if len + 2 ≤ r1.length ∧ (r1.drop len).take 2 = ['\r', '\n'] then
                    (parseBulks n (r1.drop (len + 2))).map
                      (fun p => (r1.take len :: p.1, p.2))
                  else none
      | _ => none

/-- `parse_client_message`: array framing when the first byte is `*`,
otherwise one inline line split on whitespace.  `none` conflates nom's
`Incomplete` and `Error` outcomes; `some` is an accepted message
together with the unconsumed rest. -/
def parseClientMessage (input : List Char) :
    Option (List (List Char) × List Char) :=
  match input with
  | [] => none
  | '*' :: rest =>
      match takeUntilCRLF rest with
      | none => none
      | some (lenStr, r1) =>
          match parseUsize (String.mk lenStr) with
          | none => none
          | some n => parseBulks n r1
  | _ =>
      (takeUntilLF input).map (fun p => (splitTrim p.1, p.2))

/-- An accepted client message as the dispatcher sees it. -/
def parseMessageStrings (input : List Char) :
    Option (List String × List Char) :=
  (parseClientMessage input).map (fun p => (p.1.map String.mk, p.2))

/-! Reply values and the encoder (src/resp.rs). -/

/-- `RespData`. -/
inductive RespData where
  | simpleString (s : String)
  | error (s : String)
  | integer (i : Int)
  | bulkString (s : String)
  | nil
  | array (xs : List RespData)

/-- `RespData::write_to`: the exact bytes emitted for a reply value. -/
def respWriteTo : RespData → String
  | RespData.simpleString s => "+" ++ s ++ CRLF
  | RespData.error e => "-" ++ e ++ CRLF
  | RespData.integer i => ":" ++ toString i ++ CRLF
  | RespData.bulkString s => "$" ++ toString s.utf8ByteSize ++ CRLF ++ s ++ CRLF
  | RespData.nil => "$-1" ++ CRLF
  | RespData.array a =>
      "*" ++ toString a.length ++ CRLF ++
        String.join (a.attach.map (fun x => respWriteTo x.1))
decreasing_by
  have := List.sizeOf_lt_of_mem x.2
  simp only [RespData.array.sizeOf_spec]
  omega

/-! Specification-side definitions, written from the spec's words, to
be compared with the definitions translated from the source. -/

/-- Spec-side digit-string reading: one or more ASCII digits (leading
zeros allowed), denoting their decimal value. -/
def specDigits (cs : List Char) : Option Nat :=
  if cs ≠ [] ∧ cs.all (fun c => c.isDigit) then some (decimalValue cs) else none

/-- Spec-side statement of the integer-literal grammar actually
accepted by the stored-string parse: an optional `+` or `-` sign
followed by one or more decimal digits, no whitespace, leading zeros
allowed, denoting a value within the signed 64-bit range; out-of-range
values fail. -/
def i64SpecParse (s : String) : Option Int :=
  match s.toList with
  | [] => none
  | c :: rest =>
      if c = '+' then
        (specDigits rest).bind (fun n => if n < 2 ^ 63 then some (n : Int) else none)
      else if c = '-' then
        (specDigits rest).bind (fun n => if n ≤ 2 ^ 63 then some (-(n : Int)) else none)
      else
        (specDigits (c :: rest)).bind (fun n => if n < 2 ^ 63 then some (n : Int) else none)

/-- Spec-side LREM scan: walk the list front to back removing elements
equal to `v` while the removal budget lasts; return the survivors in
order and the number removed. -/
def lremSpecFwd : Nat → String → List String → List String × Nat
  | _, _, [] => ([], 0)
  | 0, _, l => (l, 0)
  | b + 1, v, e :: rest =>
      if e = v then
        let (l', r) := lremSpecFwd b v rest
        (l', r + 1)
      else
        let (l', r) := lremSpecFwd (b + 1) v rest
        (e :: l', r)

/-! ## Claim theorems -/

/-- C1: sending INCR cnt is claimed to act on key `cnt`: absent → `:1`,
again → `:2`, then after SET cnt foo a further INCR cnt → the
not-an-integer error.  The code's `handle_incr` passes `args[0]` — the
command name — as the key, so the whole scenario increments key `INCR`:
the replies are `:1`, `:2`, `+OK` and then `:3`, not the claimed error. -/
theorem c1_incr_scenario_increments_command_name :
    parseMessageStrings ("*2\r\n$4\r\nINCR\r\n$3\r\ncnt\r\n".toList)
      = some (["INCR", "cnt"], []) ∧
    makeResponse [] ["INCR", "cnt"]
      = some ([("INCR", Value.string "1")], ":1" ++ CRLF) ∧
    makeResponse [("INCR", Value.string "1")] ["INCR", "cnt"]
      = some ([("INCR", Value.string "2")], ":2" ++ CRLF) ∧
    makeResponse [("INCR", Value.string "2")] ["SET", "cnt", "foo"]
      = some ([("cnt", Value.string "foo"), ("INCR", Value.string "2")], okReply) ∧
    makeResponse [("cnt", Value.string "foo"), ("INCR", Value.string "2")] ["INCR", "cnt"]
      = some ([("cnt", Value.string "foo"), ("INCR", Value.string "3")], ":3" ++ CRLF) ∧
    (":3" ++ CRLF : String) ≠ notIntReply ∧
    dbIncr [("cnt", Value.string "foo")] "cnt" = ([("cnt", Value.string "foo")], notIntReply) := by
  decide

/-- C2: after RPUSH-ing a, b, c, d onto L, the request LRANGE L -3 -1
is claimed to reply with the array [b, c, d].  The code's
`handle_lrange` parses `args[1]` (the key "L") as `start`, so the
request replies with the not-an-integer error; the database-level
`lrange` on (-3, -1) does produce [b, c, d].  The database level also
misstates the header when stop ≥ len: LRANGE L 0 5 on [a, b, c] emits a
`*4` header followed by only three elements. -/
theorem c2_lrange_scenario_rejected_by_dispatcher :
    parseMessageStrings ("*4\r\n$6\r\nLRANGE\r\n$1\r\nL\r\n$2\r\n-3\r\n$2\r\n-1\r\n".toList)
      = some (["LRANGE", "L", "-3", "-1"], []) ∧
    makeResponse [] ["RPUSH", "L", "a"]
      = some ([("L", Value.list ["a"])], ":1" ++ CRLF) ∧
    makeResponse [("L", Value.list ["a"])] ["RPUSH", "L", "b"]
      = some ([("L", Value.list ["a", "b"])], ":2" ++ CRLF) ∧
    makeResponse [("L", Value.list ["a", "b"])] ["RPUSH", "L", "c"]
      = some ([("L", Value.list ["a", "b", "c"])], ":3" ++ CRLF) ∧
    makeResponse [("L", Value.list ["a", "b", "c"])] ["RPUSH", "L", "d"]
      = some ([("L", Value.list ["a", "b", "c", "d"])], ":4" ++ CRLF) ∧
    makeResponse [("L", Value.list ["a", "b", "c", "d"])] ["LRANGE", "L", "-3", "-1"]
      = some ([("L", Value.list ["a", "b", "c", "d"])], notIntReply) ∧
    notIntReply ≠ "*3" ++ CRLF ++ bulkStringRef "b" ++ bulkStringRef "c" ++ bulkStringRef "d" ∧
    dbLrange [("L", Value.list ["a", "b", "c", "d"])] "L" (-3) (-1)
      = ([("L", Value.list ["a", "b", "c", "d"])],
         "*3" ++ CRLF ++ bulkStringRef "b" ++ bulkStringRef "c" ++ bulkStringRef "d") ∧
    dbLrange [("L", Value.list ["a", "b", "c"])] "L" 0 5
      = ([("L", Value.list ["a", "b", "c"])],
         "*4" ++ CRLF ++ bulkStringRef "a" ++ bulkStringRef "b" ++ bulkStringRef "c") := by
  decide

/-- C3: every accepted request is claimed to produce exactly one reply
without panicking, an inline line of only whitespace included.  An
inline line of only whitespace is accepted by the parser with an empty
argument vector, and `make_response` then fails its
`assert!(!msg.is_empty())`: the thread panics and no reply is written
(`none` in the model). -/
theorem c3_whitespace_inline_line_panics :
    parseMessageStrings (" \t \n".toList) = some ([], []) ∧
    parseMessageStrings ("\n".toList) = some ([], []) ∧
    (∀ db : Database, makeResponse db [] = none) := by
  refine ⟨by decide, by decide, fun db => rfl⟩

/-- C4: EXISTS k is claimed to reply 1 when k is present, and DEL is
claimed to count exactly the listed keys.  The code's `handle_exists`
checks `args[0]` (the command name) and `handle_del` passes the whole
argument vector, command name included: with k present, the request
EXISTS k replies `:0`, and the request DEL x (x absent) on a database
holding key "DEL" replies `:1` and removes "DEL".  The database-level
`exists` and `del` do behave as claimed. -/
theorem c4_exists_del_use_command_name :
    makeResponse [("k", Value.string "v")] ["EXISTS", "k"]
      = some ([("k", Value.string "v")], ":0" ++ CRLF) ∧
    dbExists [("k", Value.string "v")] "k"
      = ([("k", Value.string "v")], ":1" ++ CRLF) ∧
    makeResponse [("DEL", Value.string "v")] ["DEL", "x"]
      = some ([], ":1" ++ CRLF) ∧
    dbDel [("DEL", Value.string "v")] ["x"]
      = ([("DEL", Value.string "v")], ":0" ++ CRLF) := by
  decide

/-- C5 counterexample: the stored string "09223372036854775807" has a
leading zero and its successor overflows i64, so the claim requires the
not-an-integer error; the code parses it (Rust's `from_str` accepts
leading zeros) and wraps the increment, replying
`:-9223372036854775808`. -/
theorem c5_leading_zero_overflow_counterexample :
    dbIncr [("cnt", Value.string "09223372036854775807")] "cnt"
      = ([("cnt", Value.string "-9223372036854775808")],
         integerReply (-9223372036854775808)) ∧
    integerReply (-9223372036854775808) ≠ notIntReply := by
  decide

/-- C6: LTRIM on an existing list is claimed to reply OK in all cases,
removing the key when the clamped range is empty and truncating
otherwise.  The code panics (`none`) whenever the normalized stop
reaches the list length (`stop_clamped` is `min(len, stop)`, so `numel`
exceeds the remaining length and `VecDeque::drain` is called out of
bounds) and whenever the normalized stop is negative (the `as usize`
cast wraps).  The empty-range removal and in-range truncation paths do
behave as claimed. -/
theorem c6_ltrim_panics_on_large_stop :
    dbLtrim [("k", Value.list ["a", "b", "c"])] "k" 0 5 = none ∧
    dbLtrim [("k", Value.list ["a", "b", "c"])] "k" 0 (-10) = none ∧
    dbLtrim [("k", Value.list ["a", "b", "c"])] "k" 5 1 = some ([], okReply) ∧
    dbLtrim [("k", Value.list ["a", "b", "c", "d"])] "k" 1 2
      = some ([("k", Value.list ["b", "c"])], okReply) ∧
    dbExists [] "k" = ([], ":0" ++ CRLF) := by
  decide

/-- C9: `serialized_len` is claimed to equal the exact byte count of
`write_to` for every reply, integers across the whole i64 range
included.  `write_to` emits 20 bytes for `Integer(10^16)`, while the
float-based digit count in `serialized_len` yields 16 + 3 = 19. -/
theorem c9_integer_write_len_at_ten_pow_sixteen :
    respWriteTo (RespData.integer 10000000000000000) = ":10000000000000000" ++ CRLF ∧
    (respWriteTo (RespData.integer 10000000000000000)).length = 20 ∧
    (respWriteTo (RespData.integer 10000000000000000)).length ≠ 16 + 3 := by
  refine ⟨?_, ?_, ?_⟩ <;> simp only [respWriteTo] <;> decide

/-- Folding the digit accumulator from a failed state stays failed. -/
theorem foldl_digitStep_none (cs : List Char) : cs.foldl digitStep none = none := by
  induction cs with
  | nil => rfl
  | cons c rest ih => simp [digitStep, ih]

/-- The digit accumulator succeeds exactly on all-digit strings. -/
theorem foldl_digitStep_some (cs : List Char) (a : Nat) :
    cs.foldl digitStep (some a)
      = if cs.all (fun c => c.isDigit)
          then some (cs.foldl (fun n c => n * 10 + (c.toNat - 48)) a) else none := by
  induction cs generalizing a with
  | nil => simp
  | cons c rest ih =>
      by_cases h : c.isDigit
      · simp [digitStep, h, ih]
      · simp [digitStep, h, foldl_digitStep_none]

/-- The source's digit scan agrees with the spec-side digit grammar. -/
theorem digitsVal_eq_specDigits (cs : List Char) : digitsVal cs = specDigits cs := by
  cases cs with
  | nil => rfl
  | cons c rest =>
      calc digitsVal (c :: rest) = (c :: rest).foldl digitStep (some 0) := rfl
        _ = specDigits (c :: rest) := by
            rw [foldl_digitStep_some]
            simp [specDigits, decimalValue]

/-- The source's `str::parse::<i64>` model agrees with the spec-side
grammar `i64SpecParse` on every string. -/
theorem parseI64_eq_i64SpecParse (s : String) : parseI64 s = i64SpecParse s := by
  unfold parseI64 i64SpecParse
  cases s.toList with
  | nil => rfl
  | cons c rest =>
      simp only [digitsVal_eq_specDigits]
      by_cases h1 : c = '+'
      · simp only [if_pos h1]
        cases hd : specDigits rest with
        | none => rfl
        | some n =>
            have he : (n ≤ 9223372036854775807) = (n < 9223372036854775808) :=
              propext (by omega)
            simp [he]
      · by_cases h2 : c = '-'
        · simp only [if_neg h1, if_pos h2]
          cases hd : specDigits rest with
          | none => rfl
          | some n => simp
        · simp only [if_neg h1, if_neg h2]
          cases hd : specDigits (c :: rest) with
          | none => rfl
          | some n =>
              have he : (n ≤ 9223372036854775807) = (n < 9223372036854775808) :=
                propext (by omega)
              simp [he]

/-- C5 (amended): for a key holding a String, the INCR family parses the
stored string with Rust's `i64` grammar — an optional `+` or `-` sign
then one or more digits, leading zeros allowed, no whitespace, failing
exactly on out-of-range values — and replies the not-an-integer error
exactly when that parse fails; otherwise it stores the canonical decimal
of the updated value, computed with wrapping 64-bit arithmetic, and
replies with it. -/
theorem c5_rmw_integer_grammar_amended :
    (∀ s : String, parseI64 s = i64SpecParse s) ∧
    ∀ (db : Database) (k s : String) (increment : Int),
      (i64SpecParse s = none →
        dbIncrby ((k, Value.string s) :: db) k increment
          = ((k, Value.string s) :: db, notIntReply)) ∧
      (i64SpecParse s = none →
        dbDecrby ((k, Value.string s) :: db) k increment
          = ((k, Value.string s) :: db, notIntReply)) ∧
      ∀ x : Int, i64SpecParse s = some x →
        dbIncrby ((k, Value.string s) :: db) k increment
          = ((k, Value.string (toString (wrap64 (x + increment)))) :: db,
             integerReply (wrap64 (x + increment))) ∧
        dbDecrby ((k, Value.string s) :: db) k increment
          = ((k, Value.string (toString (wrap64 (x - increment)))) :: db,
             integerReply (wrap64 (x - increment))) := by
  refine ⟨parseI64_eq_i64SpecParse,
    fun db k s inc => ⟨fun h => ?_, fun h => ?_, fun x h => ⟨?_, ?_⟩⟩⟩
  · unfold dbIncrby dbRmwInteger
    simp [lookupKey, parseI64_eq_i64SpecParse, h]
  · unfold dbDecrby dbRmwInteger
    simp [lookupKey, parseI64_eq_i64SpecParse, h]
  · unfold dbIncrby dbRmwInteger
    simp [lookupKey, replaceKey, parseI64_eq_i64SpecParse, h]
  · unfold dbDecrby dbRmwInteger
    simp [lookupKey, replaceKey, parseI64_eq_i64SpecParse, h]

/-- C5 amended-claim witness: the theorem applied at the stored strings
"12a" (parse failure) and "07" (leading zero accepted, value 7). -/
theorem c5_rmw_integer_grammar_amended_witness :
    dbIncrby [("k", Value.string "12a")] "k" 5
      = ([("k", Value.string "12a")], notIntReply) ∧
    dbIncrby [("k", Value.string "07")] "k" 1
      = ([("k", Value.string (toString (wrap64 (7 + 1))))], integerReply (wrap64 (7 + 1))) :=
  ⟨(c5_rmw_integer_grammar_amended.2 [] "k" "12a" 5).1 (by decide),
   ((c5_rmw_integer_grammar_amended.2 [] "k" "07" 1).2.2 7 (by decide)).1⟩

/-- Overwriting the cell under `k` makes it the cell found under `k`. -/
theorem lookupKey_replaceKey (db : Database) (k : String) (v : Value) :
    lookupKey (replaceKey db k v) k = (lookupKey db k).map (fun _ => v) := by
  induction db with
  | nil => rfl
  | cons p rest ih =>
      obtain ⟨k', v'⟩ := p
      by_cases h : k' = k
      · simp [replaceKey, lookupKey, h]
      · simp [replaceKey, lookupKey, h, ih]

/-- C7: for every key, value and prior database state — the key holding
a list included — SET replies OK and a following GET replies the bulk
string of the value just set. -/
theorem c7_set_then_get (db : Database) (k v : String) :
    (dbSet db k v).2 = okReply ∧
    dbGet (dbSet db k v).1 k = ((dbSet db k v).1, bulkStringRef v) := by
  unfold dbSet dbGet
  cases h : lookupKey db k with
  | none => simp [insertKey, lookupKey]
  | some w => simp [lookupKey_replaceKey, h]

/-- C10: the observing operations GET, MGET, LLEN, LINDEX, LRANGE and
EXISTS return the database unchanged for every starting state and all
arguments. -/
theorem c10_readonly_ops_preserve_database :
    (∀ (db : Database) (k : String), (dbGet db k).1 = db) ∧
    (∀ (db : Database) (keys : List String), (dbMget db keys).1 = db) ∧
    (∀ (db : Database) (k : String), (dbLlen db k).1 = db) ∧
    (∀ (db : Database) (k : String) (i : Int), (dbLindex db k i).1 = db) ∧
    (∀ (db : Database) (k : String) (s e : Int), (dbLrange db k s e).1 = db) ∧
    (∀ (db : Database) (k : String), (dbExists db k).1 = db) := by
  refine ⟨fun db k => ?_, fun db keys => rfl, fun db k => ?_, fun db k i => ?_,
    fun db k s e => ?_, fun db k => rfl⟩
  · unfold dbGet; split <;> rfl
  · unfold dbLlen; split <;> rfl
  · unfold dbLindex
    split <;> try rfl
    all_goals dsimp only
    all_goals (repeat' split)
    all_goals rfl
  · unfold dbLrange
    split <;> try rfl
    all_goals dsimp only
    all_goals (repeat' split)
    all_goals rfl

/-- The cell just consed for `k` is the one found under `k`. -/
theorem lookupKey_cons_self (db : Database) (k : String) (w : Value) :
    lookupKey ((k, w) :: db) k = some w := by
  simp [lookupKey]

/-- Overwriting the head entry's cell rewrites just that entry. -/
theorem replaceKey_cons_self (db : Database) (k : String) (w w' : Value) :
    replaceKey ((k, w) :: db) k w' = (k, w') :: db := by
  simp [replaceKey]

/-- A zero removal budget leaves the list unchanged. -/
theorem lremSpecFwd_zero (v : String) (l : List String) :
    lremSpecFwd 0 v l = (l, 0) := by
  cases l <;> rfl

/-- The spec-side LREM scan yields a sublist: survivors keep their
relative order. -/
theorem lremSpecFwd_sublist (b : Nat) (v : String) (l : List String) :
    (lremSpecFwd b v l).1.Sublist l := by
  induction l generalizing b with
  | nil => simp [lremSpecFwd]
  | cons e rest ih =>
      cases b with
      | zero => simp [lremSpecFwd]
      | succ b' =>
          by_cases h : e = v
          · simp only [lremSpecFwd, if_pos h]
            exact List.Sublist.cons e (ih b')
          · simp only [lremSpecFwd, if_neg h]
            exact List.Sublist.cons₂ e (ih (b' + 1))

/-- Survivors plus removals account for the whole list. -/
theorem lremSpecFwd_count (b : Nat) (v : String) (l : List String) :
    (lremSpecFwd b v l).1.length + (lremSpecFwd b v l).2 = l.length := by
  induction l generalizing b with
  | nil => simp [lremSpecFwd]
  | cons e rest ih =>
      cases b with
      | zero => simp [lremSpecFwd]
      | succ b' =>
          by_cases h : e = v
          · have := ih b'
            simp only [lremSpecFwd, if_pos h]
            simp at this ⊢
            omega
          · have := ih (b' + 1)
            simp only [lremSpecFwd, if_neg h]
            simp at this ⊢
            omega

/-- The `count > 0` loop of the source equals the spec-side scan, for
any number of removals already performed. -/
theorem lremFwd_eq_spec (count : Int) (v : String) (l : List String) :
    ∀ k : Int, 0 ≤ k → k ≤ count →
      lremFwd count v l k
        = ((lremSpecFwd (count - k).toNat v l).1,
           k + ((lremSpecFwd (count - k).toNat v l).2 : Int)) := by
  induction l with
  | nil =>
      intro k h0 hc
      simp [lremFwd, lremSpecFwd]
  | cons e rest ih =>
      intro k h0 hc
      by_cases hlt : k < count
      · rcases hb : (count - k).toNat with _ | b
        · omega
        · have hb' : (count - (k + 1)).toNat = b := by omega
          by_cases hev : e = v
          · rw [lremFwd, if_pos ⟨hlt, hev⟩, ih (k + 1) (by omega) (by omega), hb']
            simp [lremSpecFwd, hev, Prod.ext_iff]
            omega
          · rw [lremFwd, if_neg (fun hco => hev hco.2), ih k h0 hc, hb]
            simp [lremSpecFwd, hev, Prod.ext_iff]
      · have hb : (count - k).toNat = 0 := by omega
        rw [lremFwd, if_neg (fun hco => hlt hco.1), ih k h0 hc, hb]
        simp [lremSpecFwd, lremSpecFwd_zero]

/-- The `count < 0` fold of the source — visiting elements back to
front and pushing survivors to the front — equals the spec-side scan of
the reversed list, reversed back. -/
theorem lremBwd_eq_spec (count : Int) (v : String) (B : List String) :
    ∀ (a : List String) (k : Int), 0 ≤ k → k ≤ -count →
      B.foldl (lremBwdStep count v) (a, k)
        = ((lremSpecFwd (-count - k).toNat v B).1.reverse ++ a,
           k + ((lremSpecFwd (-count - k).toNat v B).2 : Int)) := by
  induction B with
  | nil =>
      intro a k h0 hn
      simp [lremSpecFwd]
  | cons e B' ih =>
      intro a k h0 hn
      by_cases hlt : k < -count
      · rcases hb : (-count - k).toNat with _ | b
        · omega
        · have hb' : (-count - (k + 1)).toNat = b := by omega
          by_cases hev : e = v
          · have hstep : lremBwdStep count v (a, k) e = (a, k + 1) := by
              simp [lremBwdStep, hlt, hev]
            rw [List.foldl_cons, hstep, ih a (k + 1) (by omega) (by omega), hb']
            simp [lremSpecFwd, hev, Prod.ext_iff]
            omega
          · have hstep : lremBwdStep count v (a, k) e = (e :: a, k) := by
              simp [lremBwdStep, hev]
            rw [List.foldl_cons, hstep, ih (e :: a) k h0 hn, hb]
            simp [lremSpecFwd, hev, Prod.ext_iff]
      · have hk0 : (-count - k).toNat = 0 := by omega
        have hstep : lremBwdStep count v (a, k) e = (e :: a, k) := by
          simp [lremBwdStep, hlt]
        rw [List.foldl_cons, hstep, ih (e :: a) k h0 hn, hk0]
        simp [lremSpecFwd, lremSpecFwd_zero]

/-- C8: LREM on a key holding a list removes up to `count` matches head
to tail for positive counts, up to `|count|` matches tail to head for
negative counts — keeping the survivors a sublist of the original, so
their relative order is preserved — and every match when the count is
zero; in all cases the reply is the number of elements actually
removed. -/
theorem c8_lrem_matches_spec (db : Database) (k v : String) (count : Int) (l : List String) :
    ∃ (l' : List String) (rn : Nat),
      dbLrem ((k, Value.list l) :: db) k count v
        = ((k, Value.list l') :: db, integerReply rn) ∧
      l'.Sublist l ∧
      rn + l'.length = l.length ∧
      (0 < count → (l', rn) = lremSpecFwd count.toNat v l) ∧
      (count < 0 →
        l' = (lremSpecFwd (-count).toNat v l.reverse).1.reverse ∧
        rn = (lremSpecFwd (-count).toNat v l.reverse).2) ∧
      (count = 0 → l' = l.filter (fun e => e ≠ v)) := by
  unfold dbLrem
  rw [lookupKey_cons_self]
  dsimp only
  by_cases h1 : 0 < count
  · rw [if_pos h1, lremFwd_eq_spec count v l 0 le_rfl (le_of_lt h1)]
    simp only [Int.sub_zero, Int.zero_add]
    refine ⟨(lremSpecFwd count.toNat v l).1, (lremSpecFwd count.toNat v l).2,
      ?_, lremSpecFwd_sublist _ _ _, ?_, fun _ => rfl,
      fun hc => absurd hc (by omega), fun hc => absurd hc (by omega)⟩
    · rw [replaceKey_cons_self]
    · have := lremSpecFwd_count count.toNat v l
      omega
  · by_cases h2 : count < 0
    · rw [if_neg h1, if_pos h2,
        lremBwd_eq_spec count v l.reverse [] 0 le_rfl (by omega)]
      simp only [Int.sub_zero, Int.zero_add, List.append_nil]
      refine ⟨(lremSpecFwd (-count).toNat v l.reverse).1.reverse,
        (lremSpecFwd (-count).toNat v l.reverse).2, ?_, ?_, ?_,
        fun hc => absurd hc (by omega), fun _ => ⟨rfl, rfl⟩,
        fun hc => absurd hc (by omega)⟩
      · rw [replaceKey_cons_self]
      · have hs := lremSpecFwd_sublist (-count).toNat v l.reverse
        have hrs := List.reverse_sublist.mpr hs
        rwa [List.reverse_reverse] at hrs
      · have := lremSpecFwd_count (-count).toNat v l.reverse
        simp only [List.length_reverse] at this ⊢
        omega
    · have h0 : count = 0 := by omega
      rw [if_neg h1, if_neg h2]
      refine ⟨l.filter (fun e => e ≠ v), l.length - (l.filter (fun e => e ≠ v)).length,
        ?_, List.filter_sublist l, ?_, fun hc => absurd hc (by omega),
        fun hc => absurd hc (by omega), fun _ => rfl⟩
      · rw [replaceKey_cons_self]
      · have := (List.filter_sublist (p := fun e => e ≠ v) l).length_le
        omega

/-- C8 witness: the theorem applied to LREM k -1 v on the list
[a, v, v]. -/
theorem c8_lrem_matches_spec_witness :
    ∃ (l' : List String) (rn : Nat),
      dbLrem [("k", Value.list ["a", "v", "v"])] "k" (-1) "v"
        = ([("k", Value.list l')], integerReply rn) ∧
      l'.Sublist ["a", "v", "v"] ∧
      rn + l'.length = (["a", "v", "v"] : List String).length ∧
      (0 < (-1 : Int) → (l', rn) = lremSpecFwd (-1 : Int).toNat "v" ["a", "v", "v"]) ∧
      ((-1 : Int) < 0 →
        l' = (lremSpecFwd (-(-1) : Int).toNat "v"
                (["a", "v", "v"] : List String).reverse).1.reverse ∧
        rn = (lremSpecFwd (-(-1) : Int).toNat "v"
                (["a", "v", "v"] : List String).reverse).2) ∧
      ((-1 : Int) = 0 →
        l' = (["a", "v", "v"] : List String).filter (fun e => e ≠ "v")) :=
  c8_lrem_matches_spec [] "k" "v" (-1) ["a", "v", "v"]

end Crudis
